import Mathlib

/-!
Shallow embedding of the `teaconfigs` server-configuration core
(`ServerConfig` and its scheduling / domain-matching / scope-resolution
operations) and proofs about it.

Conventions of the embedding:
* Go maps (`maps.Map`, `map[string]...`) are modelled as total functions
  `String → Option String` (`GoMap`); writing `m[k] = v` is pointwise
  function override.
* Receiver mutation is modelled by returning the updated state; a method
  that mutates both its receiver and a caller-supplied map returns both.
* Fallible external sub-validators (SSL, backend, location, fastcgi,
  rewrite, header, cache-policy, API validation — external collaborators
  whose only contract here is "return the first error") are modelled as
  stored `Option String` error results.
* The scheduling algorithm's selection behaviour (`Next`) is abstract: it
  is passed as a function parameter, since the engine is agnostic to it.
-/

/-- A Go `map[string]string`-style map as a finite-support function:
`none` means the key is absent. -/
def GoMap : Type := String → Option String

/-- Go `strings.Split(s, ".")` on the character list: splitting the empty
list yields one empty field, and each `'.'` starts a new field. -/
def splitDot : List Char → List (List Char)
  | [] => [[]]
  | c :: rest =>
    if c = '.' then [] :: splitDot rest
    else
      match splitDot rest with
      | [] => [[c]]
      | g :: gs => (c :: g) :: gs

/-- Go `strings.Split(name, ".")` used by `MatchName`. -/
def splitOnDot (s : String) : List String :=
  (splitDot s.toList).map fun cs => String.mk cs

/-- One upstream target (`ServerBackendConfig`): id, enabled flag, health
flag, tier marker, and the abstract result of its external `Validate()`. -/
structure ServerBackendConfig where
  Id : String := ""
  On : Bool := true
  IsDown : Bool := false
  IsBackup : Bool := false
  validateErr : Option String := none
deriving DecidableEq

/-- A rewrite rule as far as the scope resolver needs it: its id. -/
structure RewriteRule where
  Id : String := ""
deriving DecidableEq

/-- A fastcgi target as far as the scope resolver needs it: its id. -/
structure FastcgiConfig where
  Id : String := ""
deriving DecidableEq

/-- A path-scoped override node (`LocationConfig`): its id, its own
rewrite/fastcgi/backend lists, and its external validation result. -/
structure LocationConfig where
  Id : String := ""
  rewrites : List RewriteRule := []
  fastcgis : List FastcgiConfig := []
  backends : List ServerBackendConfig := []
  validateErr : Option String := none
deriving DecidableEq

/-- SSL settings: only their external validation result matters here. -/
structure SSLConfig where
  validateErr : Option String := none
deriving DecidableEq

/-- API settings: only their external validation result matters here. -/
structure APIConfig where
  validateErr : Option String := none
deriving DecidableEq

/-- Modelled from the spec: `api.NewAPIConfig()` produces a fresh API
sub-configuration (which validates successfully). -/
def NewAPIConfig : APIConfig := {}

/-- A cache policy object (`shared.CachePolicy`): only its external
validation result matters here. -/
structure shared.CachePolicy where
  validateErr : Option String := none
deriving DecidableEq

/-- The chosen scheduling algorithm's `Code` plus its free-form static
`Options` map (`SchedulingConfig`). -/
structure SchedulingConfig where
  Code : String := ""
  Options : GoMap

/-- A scheduling-algorithm instance as the engine sees it: which registry
code it was built from (`none` = the default `RandomScheduling`), its
candidate pool (filled by `Add`), and whether `Start()` was called. -/
structure SchedObj where
  algCode : Option String := none
  pool : List ServerBackendConfig := []
  started : Bool := false
deriving DecidableEq

/-- `SchedulingInterface.Add`: appends one backend to the pool. -/
def SchedObj.Add (o : SchedObj) (backend : ServerBackendConfig) : SchedObj :=
  { o with pool := o.pool ++ [backend] }

/-- `SchedulingInterface.Start`: the post-population hook. -/
def SchedObj.Start (o : SchedObj) : SchedObj :=
  { o with started := true }

/-- `scheduling.RandomScheduling{}`: the default random-pick algorithm,
fresh and empty. -/
def RandomScheduling : SchedObj := {}

/-- Modelled from the spec: `scheduling.FindSchedulingType` looks a code up
in the global registry and yields a descriptor containing a fresh algorithm
instance, or `nil` for an unrecognized code.  The registry contents are
abstract (`recognized`). -/
def FindSchedulingType (recognized : String → Bool) (code : String) : Option SchedObj :=
  if recognized code then some { algCode := some code } else none

/-- The root aggregate (`ServerConfig`), restricted to the fields the
verified operations read or write.  `rewrites` / `fastcgis` are the
server-level lists contributed by the embedded `RewriteList` /
`FastcgiList`; `fastcgiErr` / `rewriteErr` / `headersErr` are the abstract
results of the external `ValidateFastcgi` / `ValidateRewriteRules` /
`ValidateHeaders` sub-validators. -/
structure ServerConfig where
  On : Bool := true
  Name : List String := []
  Backends : List ServerBackendConfig := []
  Scheduling : Option SchedulingConfig := none
  Locations : List LocationConfig := []
  rewrites : List RewriteRule := []
  fastcgis : List FastcgiConfig := []
  SSL : Option SSLConfig := none
  CachePolicy : String := ""
  cachePolicy : Option shared.CachePolicy := none
  API : Option APIConfig := none
  fastcgiErr : Option String := none
  rewriteErr : Option String := none
  headersErr : Option String := none
  schedulingIsBackup : Bool := false
  schedulingObject : Option SchedObj := none

/-- `FindBackend`: first backend with the given id. -/
def ServerConfig.FindBackend (this : ServerConfig) (backendId : String) :
    Option ServerBackendConfig :=
  this.Backends.find? fun backend => backend.Id == backendId

/-- `FindLocation`: first location with the given id (the Go code also
re-validates the found location; that self-healing side effect does not
change which object is returned). -/
def ServerConfig.FindLocation (this : ServerConfig) (locationId : String) :
    Option LocationConfig :=
  this.Locations.find? fun location => location.Id == locationId

/-- Modelled from the spec: the server-level `FindRewriteRule` of the
embedded `RewriteList` is an id-keyed first-match linear scan. -/
def ServerConfig.FindRewriteRule (this : ServerConfig) (rewriteId : String) :
    Option RewriteRule :=
  this.rewrites.find? fun rewrite => rewrite.Id == rewriteId

/-- Modelled from the spec: the server-level `FindFastcgi` of the embedded
`FastcgiList` is an id-keyed first-match linear scan. -/
def ServerConfig.FindFastcgi (this : ServerConfig) (fastcgiId : String) :
    Option FastcgiConfig :=
  this.fastcgis.find? fun fastcgi => fastcgi.Id == fastcgiId

/-- Modelled from the spec: `LocationConfig.FindRewriteRule`, id-keyed
first-match linear scan inside the location. -/
def LocationConfig.FindRewriteRule (this : LocationConfig) (rewriteId : String) :
    Option RewriteRule :=
  this.rewrites.find? fun rewrite => rewrite.Id == rewriteId

/-- Modelled from the spec: `LocationConfig.FindFastcgi`, id-keyed
first-match linear scan inside the location. -/
def LocationConfig.FindFastcgi (this : LocationConfig) (fastcgiId : String) :
    Option FastcgiConfig :=
  this.fastcgis.find? fun fastcgi => fastcgi.Id == fastcgiId

/-- Modelled from the spec: `LocationConfig.FindBackend`, id-keyed
first-match linear scan inside the location. -/
def LocationConfig.FindBackend (this : LocationConfig) (backendId : String) :
    Option ServerBackendConfig :=
  this.backends.find? fun backend => backend.Id == backendId

/-- The per-segment comparison of `MatchName`'s inner loop: every pattern
segment must equal the input segment at the same index, unless the pattern
segment is `"*"` or empty (the call site guarantees equal lengths, so the
index-wise Go loop is the `zip`). -/
def piecesMatch (pieces1 pieces2 : List String) : Bool :=
  (pieces1.zip pieces2).all fun p => p.1 == p.2 || p.2 == "*" || p.2 == ""

/-- The pattern loop of `MatchName` (lines 354–375): skip empty patterns,
return `(testName, true)` on exact equality, skip patterns with a different
dot-segment count, return `("", true)` on a segment-wise match. -/
def matchLoop (name : String) (pieces1 : List String) (countPieces1 : Nat) :
    List String → String × Bool
  | [] => ("", false)
  | testName :: rest =>
    if testName.length = 0 then matchLoop name pieces1 countPieces1 rest
    else if name = testName then (testName, true)
    else
      let pieces2 := splitOnDot testName
      if countPieces1 ≠ pieces2.length then matchLoop name pieces1 countPieces1 rest
      else if piecesMatch pieces1 pieces2 then ("", true)
      else matchLoop name pieces1 countPieces1 rest

/-- `MatchName`: empty input never matches; otherwise run the pattern loop
over the configured `Name` patterns. -/
def ServerConfig.MatchName (this : ServerConfig) (name : String) : String × Bool :=
  if name.length = 0 then ("", false)
  else matchLoop name (splitOnDot name) (splitOnDot name).length this.Name

/-- Spec-side predicate, following the claim's words: the input name
matches a pattern segment-wise when both have the same number of
dot-separated segments and each input segment equals the pattern segment or
the pattern segment is `"*"` or empty. -/
def specSegmentWiseMatch (name pattern : String) : Bool :=
  (splitOnDot name).length == (splitOnDot pattern).length &&
    piecesMatch (splitOnDot name) (splitOnDot pattern)

/-- The conditions under which `matchLoop` fires its wildcard branch on a
given pattern: the pattern is non-empty, not exactly the name, and matches
segment-wise. -/
def wildcardFires (name pattern : String) : Bool :=
  pattern.length != 0 && name != pattern && specSegmentWiseMatch name pattern

/-- The algorithm-selection step of `SetupScheduling` (lines 428–439):
no `Scheduling` config means the default random algorithm; an unrecognized
code clears the stored config and falls back to the default; a recognized
code yields the registry instance. Returns the (possibly cleared) stored
config together with the fresh algorithm instance. -/
def selectSchedObj (recognized : String → Bool) (sched : Option SchedulingConfig) :
    Option SchedulingConfig × SchedObj :=
  match sched with
  | none => (none, RandomScheduling)
  | some cfg =>
    match FindSchedulingType recognized cfg.Code with
    | none => (none, RandomScheduling)
    | some s => (some cfg, s)

/-- The backend-population loop of `SetupScheduling` (lines 441–449): add
every `On && !IsDown` backend whose `IsBackup` flag matches the requested
tier. -/
def addBackends (isBackup : Bool) (obj : SchedObj)
    (backends : List ServerBackendConfig) : SchedObj :=
  backends.foldl
    (fun o backend =>
      if backend.On && !backend.IsDown then
        if isBackup && backend.IsBackup then o.Add backend
        else if !isBackup && !backend.IsBackup then o.Add backend
        else o
      else o)
    obj

/-- `SetupScheduling` (lines 421–452), minus the mutex operations (those
are modelled separately as event traces): set the backup flag, select the
algorithm instance (possibly clearing `Scheduling`), populate it with the
matching tier's enabled backends, and `Start` it. -/
def ServerConfig.SetupScheduling (this : ServerConfig) (recognized : String → Bool)
    (isBackup : Bool) : ServerConfig :=
  let p := selectSchedObj recognized this.Scheduling
  { this with
    schedulingIsBackup := isBackup
    Scheduling := p.1
    schedulingObject := some ((addBackends isBackup p.2 this.Backends).Start) }

/-- The option-merge loop of `NextBackend` (lines 253–257): each static
entry of `Scheduling.Options` is written into the caller's map (`m[k] = v`
for every static entry), so static entries override caller entries. -/
def mergedOptions (this : ServerConfig) (options : GoMap) : GoMap :=
  match this.Scheduling with
  | none => options
  | some cfg => fun k =>
    match cfg.Options k with
    | some v => some v
    | none => options k

/-- The outcome of a `NextBackend` call: the returned candidate, the
engine state after the call, and the caller's options map after the call
(Go maps are reference values, so the merge loop's writes land in the
caller's map). -/
structure NextResult where
  result : Option ServerBackendConfig
  state : ServerConfig
  options : GoMap

/-- `NextBackend` (lines 245–277), minus the mutex operations (modelled
separately as event traces): nil algorithm yields nil; otherwise merge the
static options into the caller's map, ask the algorithm for a candidate,
and on failure promote to the backup tier (if not already there) and retry
once. The `none` branch after the rebuild is unreachable (`SetupScheduling`
always installs an instance; the Go code calls `Next` on it directly).
There is no error channel: the function is total and the empty result is
`none`. -/
def ServerConfig.NextBackend (this : ServerConfig) (recognized : String → Bool)
    (nextFn : SchedObj → GoMap → Option ServerBackendConfig)
    (options : GoMap) : NextResult :=
  match this.schedulingObject with
  | none => ⟨none, this, options⟩
  | some obj =>
    let options := mergedOptions this options
    match nextFn obj options with
    | some candidate => ⟨some candidate, this, options⟩
    | none =>
      if !this.schedulingIsBackup then
        let promoted := this.SetupScheduling recognized true
        match promoted.schedulingObject with
        | none => ⟨none, promoted, options⟩
        | some obj2 =>
          match nextFn obj2 options with
          | some candidate => ⟨some candidate, promoted, options⟩
          | none => ⟨none, promoted, options⟩
      else ⟨none, this, options⟩

/-- The SSL step of `Validate` (lines 160–165): a nil SSL config is fine,
otherwise propagate its validation error. -/
def sslCheck (this : ServerConfig) : Option String :=
  match this.SSL with
  | none => none
  | some ssl => ssl.validateErr

/-- `API.Validate` as `Validate` sees it (a nil API never reaches it, the
nil case is defined as no error). -/
def apiValidateErr : Option APIConfig → Option String
  | none => none
  | some a => a.validateErr

/-- The cache-policy step of `Validate` (lines 204–214): a non-empty
`CachePolicy` name is resolved through the external
`shared.NewCachePolicyFromFile` (abstracted as `resolvePolicy`); an
unresolvable name (nil policy) is silently skipped; a resolved policy
failing its own validation aborts with that error; on success the derived
`cachePolicy` is assigned. -/
def cacheStepRun (resolvePolicy : String → Option shared.CachePolicy)
    (s1 : ServerConfig) : Except String ServerConfig :=
  if s1.CachePolicy.length > 0 then
    match resolvePolicy s1.CachePolicy with
    | some policy =>
      match policy.validateErr with
      | some e => Except.error e
      | none => Except.ok { s1 with cachePolicy := some policy }
    | none => Except.ok s1
  else Except.ok s1

/-- The API step of `Validate` (lines 216–224): ensure an API
sub-configuration exists, then propagate its validation error. -/
def apiStepRun (s2 : ServerConfig) : Option String × ServerConfig :=
  let s3 := match s2.API with
    | none => { s2 with API := some NewAPIConfig }
    | some _ => s2
  match apiValidateErr s3.API with
  | some e => (some e, s3)
  | none => (none, s3)

/-- `Validate` (lines 158–227): validate SSL, then every backend, rebuild
the scheduling engine (primary tier), validate every location, then the
fastcgi/rewrite/header sub-configurations, then the cache policy section
(lines 204–214: a non-empty `CachePolicy` name is resolved; an unresolvable
name — `NewCachePolicyFromFile` returning nil — is silently skipped; a
resolved policy failing its own validation aborts; on success the derived
`cachePolicy` is assigned), then ensure an API config exists and validate
it. Returns the first error (or `none`) together with the state as mutated
up to that point. `resolvePolicy` abstracts the external
`shared.NewCachePolicyFromFile`. -/
def ServerConfig.Validate (this : ServerConfig) (recognized : String → Bool)
    (resolvePolicy : String → Option shared.CachePolicy) :
    Option String × ServerConfig :=
  match sslCheck this with
  | some e => (some e, this)
  | none =>
    match this.Backends.findSome? ServerBackendConfig.validateErr with
    | some e => (some e, this)
    | none =>
      let s1 := this.SetupScheduling recognized false
      match s1.Locations.findSome? LocationConfig.validateErr with
      | some e => (some e, s1)
      | none =>
        match s1.fastcgiErr with
        | some e => (some e, s1)
        | none =>
          match s1.rewriteErr with
          | some e => (some e, s1)
          | none =>
            match s1.headersErr with
            | some e => (some e, s1)
            | none =>
              match cacheStepRun resolvePolicy s1 with
              | Except.error e => (some e, s1)
              | Except.ok s2 => apiStepRun s2

/-- The polymorphic result of `FindHeaderList`: the concrete scope object
whose header list was selected (`server` stands for the receiver itself). -/
inductive HeaderListRef where
  | server
  | location (location : LocationConfig)
  | backend (backend : ServerBackendConfig)
  | rewrite (rewrite : RewriteRule)
  | fastcgi (fastcgi : FastcgiConfig)
deriving DecidableEq

/-- `FindHeaderList` (lines 478–557): the first non-empty identifier in
the order rewrite > fastcgi > backend > location picks the branch; inside
a branch a non-empty `locationId` scopes the lookup into that location
(resolving the location first), and with all identifiers empty the server
itself is the owner. Error strings are the Go originals. -/
def ServerConfig.FindHeaderList (this : ServerConfig)
    (locationId backendId rewriteId fastcgiId : String) :
    Except String HeaderListRef :=
  if rewriteId.length > 0 then
    if locationId.length > 0 then
      match this.FindLocation locationId with
      | none => Except.error "找不到要修改的location"
      | some location =>
        match location.FindRewriteRule rewriteId with
        | none => Except.error "找不到要修改的rewrite"
        | some rewrite => Except.ok (HeaderListRef.rewrite rewrite)
    else
      match this.FindRewriteRule rewriteId with
      | none => Except.error "找不到要修改的rewrite"
      | some rewrite => Except.ok (HeaderListRef.rewrite rewrite)
  else if fastcgiId.length > 0 then
    if locationId.length > 0 then
      match this.FindLocation locationId with
      | none => Except.error "找不到要修改的location"
      | some location =>
        match location.FindFastcgi fastcgiId with
        | none => Except.error "找不到要修改的Fastcgi"
        | some fastcgi => Except.ok (HeaderListRef.fastcgi fastcgi)
    else
      match this.FindFastcgi fastcgiId with
      | none => Except.error "找不到要修改的Fastcgi"
      | some fastcgi => Except.ok (HeaderListRef.fastcgi fastcgi)
  else if backendId.length > 0 then
    if locationId.length > 0 then
      match this.FindLocation locationId with
      | none => Except.error "找不到要修改的location"
      | some location =>
        match location.FindBackend backendId with
        | none => Except.error "找不到要修改的Backend"
        | some backend => Except.ok (HeaderListRef.backend backend)
    else
      match this.FindBackend backendId with
      | none => Except.error "找不到要修改的Backend"
      | some backend => Except.ok (HeaderListRef.backend backend)
  else if locationId.length > 0 then
    match this.FindLocation locationId with
    | none => Except.error "找不到要修改的location"
    | some location => Except.ok (HeaderListRef.location location)
  else
    Except.ok HeaderListRef.server

/-- Events on the scheduling engine's shared state: acquiring/releasing
`schedulingLocker`, and any access (read or write) to the protected
active-algorithm pointer / backup-mode flag. -/
inductive MutexEvt where
  | lock
  | unlock
  | access
deriving DecidableEq

/-- The mutex/state event trace of `SetupScheduling` (lines 421–452): the
mutex is acquired (and, deferred, released) only when `isBackup` is false;
the body writes `schedulingIsBackup` (line 426), writes `schedulingObject`
(lines 428–439), and populates/starts it (lines 441–451). -/
def SetupSchedulingTrace (isBackup : Bool) : List MutexEvt :=
  (if isBackup then [] else [MutexEvt.lock])
    ++ [MutexEvt.access, MutexEvt.access, MutexEvt.access]
    ++ (if isBackup then [] else [MutexEvt.unlock])

/-- The mutex/state event trace of `NextBackend` (lines 245–277): the lock
is acquired first (line 246) and released last (deferred, line 247); in
between the body reads `schedulingObject` (nil check and `Next` call),
reads `schedulingIsBackup`, and on the promotion path runs
`SetupScheduling(true)`'s trace followed by the retrying `Next` call. -/
def NextBackendTrace (this : ServerConfig)
    (nextFn : SchedObj → GoMap → Option ServerBackendConfig)
    (options : GoMap) : List MutexEvt :=
  MutexEvt.lock ::
    (match this.schedulingObject with
     | none => [MutexEvt.access]
     | some obj =>
       MutexEvt.access :: MutexEvt.access ::
         (match nextFn obj (mergedOptions this options) with
          | some _ => []
          | none =>
            MutexEvt.access ::
              (if !this.schedulingIsBackup then
                SetupSchedulingTrace true ++ [MutexEvt.access]
              else [])))
    ++ [MutexEvt.unlock]

/-- The everywhere-empty Go map. -/
def emptyGoMap : GoMap := fun _ => none

/-- A registry recognizing no scheduling code. -/
def noneRecognized : String → Bool := fun _ => false

/-- A scheduling algorithm behaviour that never yields a candidate. -/
def alwaysNone : SchedObj → GoMap → Option ServerBackendConfig := fun _ _ => none

/-- A primary-tier backend fixture. -/
def backend0 : ServerBackendConfig := { Id := "b0" }

/-- A backup-tier backend fixture. -/
def backupBackend : ServerBackendConfig := { Id := "bk", IsBackup := true }

/-- Static scheduling options holding `"k" ↦ "static"`. -/
def optsStatic : GoMap := fun k => if k = "k" then some "static" else none

/-- Caller-supplied options holding `"k" ↦ "caller"`. -/
def optsCaller : GoMap := fun k => if k = "k" then some "caller" else none

/-- A scheduling config with static options sharing key `"k"` with the
caller's map. -/
def schedCfg1 : SchedulingConfig := { Code := "alg", Options := optsStatic }

/-- A scheduling algorithm behaviour that yields `backend0` exactly when
the options it receives carry the static value at key `"k"` — an observer
for which value reaches `Next`. -/
def observeNext : SchedObj → GoMap → Option ServerBackendConfig :=
  fun _ options => if options "k" = some "static" then some backend0 else none

/-- Server fixture for the option-merge claims: non-nil `Scheduling` and an
installed algorithm instance. -/
def srvC1 : ServerConfig :=
  { Scheduling := some schedCfg1, schedulingObject := some RandomScheduling }

/-- Server fixture for the failover claim: primary mode, one backend per
tier, algorithm installed. -/
def srvC2 : ServerConfig :=
  { Backends := [backend0, backupBackend], schedulingObject := some RandomScheduling }

/-- Server fixture whose pattern list shadows a verbatim name behind an
earlier wildcard pattern. -/
def srvC4 : ServerConfig := { Name := ["*.a.com", "www.a.com"] }

/-- Server fixture for exercising the exact-match loop without shadowing. -/
def srvC4w : ServerConfig := { Name := ["b.com", "a.com"] }

/-- Server fixture with a configured cache-policy name and otherwise
defaulted (all-passing) sub-configurations. -/
def srvC5 : ServerConfig := { CachePolicy := "p" }

/-- A cache-policy resolver that fails on every name (the external
`NewCachePolicyFromFile` returning nil). -/
def resolveNone : String → Option shared.CachePolicy := fun _ => none

/-- A cache-policy resolver that resolves every name to a policy that
validates successfully. -/
def resolveOk : String → Option shared.CachePolicy := fun _ => some {}

/-- Server fixture with an unrecognized scheduling code. -/
def srvC6 : ServerConfig :=
  { Scheduling := some { Code := "does-not-exist", Options := emptyGoMap } }

/-- Backend fixture living inside location `L1`. -/
def bL1 : ServerBackendConfig := { Id := "B1" }

/-- Location fixture `L1` owning backend `B1`. -/
def locL1 : LocationConfig := { Id := "L1", backends := [bL1] }

/-- Server fixture for the scope-resolution claim. -/
def srvC8 : ServerConfig := { Locations := [locL1] }

/-- Server fixture with a single wildcard pattern. -/
def srvC9a : ServerConfig := { Name := ["*"] }

/-- Server fixture with a single empty pattern. -/
def srvC9b : ServerConfig := { Name := [""] }

/-- Server fixture with a wildcard pattern for the wildcard-branch witness. -/
def srvC9w : ServerConfig := { Name := ["*.a.com"] }

theorem SchedObj.Add_pool (o : SchedObj) (b : ServerBackendConfig) :
    (o.Add b).pool = o.pool ++ [b] := rfl

theorem SchedObj.Add_algCode (o : SchedObj) (b : ServerBackendConfig) :
    (o.Add b).algCode = o.algCode := rfl

@[simp] theorem SchedObj.Start_pool (o : SchedObj) : o.Start.pool = o.pool := rfl

@[simp] theorem SchedObj.Start_algCode (o : SchedObj) : o.Start.algCode = o.algCode := rfl

@[simp] theorem SchedObj.Start_started (o : SchedObj) : o.Start.started = true := rfl

@[simp] theorem setupScheduling_Locations (this : ServerConfig) (r : String → Bool) (b : Bool) :
    (this.SetupScheduling r b).Locations = this.Locations := rfl

@[simp] theorem setupScheduling_Backends (this : ServerConfig) (r : String → Bool) (b : Bool) :
    (this.SetupScheduling r b).Backends = this.Backends := rfl

@[simp] theorem setupScheduling_fastcgiErr (this : ServerConfig) (r : String → Bool) (b : Bool) :
    (this.SetupScheduling r b).fastcgiErr = this.fastcgiErr := rfl

@[simp] theorem setupScheduling_rewriteErr (this : ServerConfig) (r : String → Bool) (b : Bool) :
    (this.SetupScheduling r b).rewriteErr = this.rewriteErr := rfl

@[simp] theorem setupScheduling_headersErr (this : ServerConfig) (r : String → Bool) (b : Bool) :
    (this.SetupScheduling r b).headersErr = this.headersErr := rfl

@[simp] theorem setupScheduling_CachePolicy (this : ServerConfig) (r : String → Bool) (b : Bool) :
    (this.SetupScheduling r b).CachePolicy = this.CachePolicy := rfl

@[simp] theorem setupScheduling_cachePolicy (this : ServerConfig) (r : String → Bool) (b : Bool) :
    (this.SetupScheduling r b).cachePolicy = this.cachePolicy := rfl

@[simp] theorem setupScheduling_API (this : ServerConfig) (r : String → Bool) (b : Bool) :
    (this.SetupScheduling r b).API = this.API := rfl

@[simp] theorem setupScheduling_isBackup (this : ServerConfig) (r : String → Bool) (b : Bool) :
    (this.SetupScheduling r b).schedulingIsBackup = b := rfl

theorem setupScheduling_Scheduling (this : ServerConfig) (r : String → Bool) (b : Bool) :
    (this.SetupScheduling r b).Scheduling = (selectSchedObj r this.Scheduling).1 := rfl

theorem setupScheduling_schedulingObject (this : ServerConfig) (r : String → Bool) (b : Bool) :
    (this.SetupScheduling r b).schedulingObject =
      some ((addBackends b (selectSchedObj r this.Scheduling).2 this.Backends).Start) := rfl

theorem addBackends_pool (tier : Bool) (obj : SchedObj) (l : List ServerBackendConfig) :
    (addBackends tier obj l).pool =
      obj.pool ++ l.filter (fun b => b.On && !b.IsDown && b.IsBackup == tier) := by
  induction l generalizing obj with
  | nil => simp [addBackends]
  | cons b rest ih =>
    have hstep : addBackends tier obj (b :: rest) =
        addBackends tier
          (if b.On && !b.IsDown then
            if tier && b.IsBackup then obj.Add b
            else if !tier && !b.IsBackup then obj.Add b
            else obj
          else obj) rest := rfl
    rw [hstep]
    cases hOn : b.On <;> cases hDown : b.IsDown <;> cases hBk : b.IsBackup <;> cases tier <;>
      simp [ih, SchedObj.Add_pool, List.filter_cons, hOn, hDown, hBk]

theorem addBackends_algCode (tier : Bool) (obj : SchedObj) (l : List ServerBackendConfig) :
    (addBackends tier obj l).algCode = obj.algCode := by
  induction l generalizing obj with
  | nil => rfl
  | cons b rest ih =>
    have hstep : addBackends tier obj (b :: rest) =
        addBackends tier
          (if b.On && !b.IsDown then
            if tier && b.IsBackup then obj.Add b
            else if !tier && !b.IsBackup then obj.Add b
            else obj
          else obj) rest := rfl
    rw [hstep, ih]
    split <;> [skip; rfl]
    split <;> [rfl; skip]
    split <;> rfl

theorem selectSchedObj_pool (r : String → Bool) (s : Option SchedulingConfig) :
    (selectSchedObj r s).2.pool = [] := by
  cases s with
  | none => rfl
  | some cfg =>
    unfold selectSchedObj FindSchedulingType
    by_cases h : r cfg.Code <;> simp [h, RandomScheduling]

theorem setupScheduling_schedObj (this : ServerConfig) (r : String → Bool) (tier : Bool) :
    ∃ obj, (this.SetupScheduling r tier).schedulingObject = some obj ∧
      obj.pool = this.Backends.filter
        (fun b => b.On && !b.IsDown && b.IsBackup == tier) ∧
      obj.started = true := by
  refine ⟨_, setupScheduling_schedulingObject this r tier, ?_, SchedObj.Start_started _⟩
  rw [SchedObj.Start_pool, addBackends_pool, selectSchedObj_pool, List.nil_append]

theorem nextBackend_options (this : ServerConfig) (recognized : String → Bool)
    (nextFn : SchedObj → GoMap → Option ServerBackendConfig) (options : GoMap)
    (obj : SchedObj) (hobj : this.schedulingObject = some obj) :
    (this.NextBackend recognized nextFn options).options = mergedOptions this options := by
  unfold ServerConfig.NextBackend
  rw [hobj]
  cases hnf : nextFn obj (mergedOptions this options) with
  | some c => simp [hnf]
  | none =>
    cases hb : this.schedulingIsBackup with
    | true => simp [hnf, hb]
    | false =>
      simp only [hnf, hb, Bool.not_false, if_true]
      cases hnf2 : nextFn ((addBackends true (selectSchedObj recognized this.Scheduling).2
          this.Backends).Start) (mergedOptions this options) <;>
        simp [setupScheduling_schedulingObject, hnf2]

/-- C2: if the active algorithm yields no candidate and the engine is not
in backup mode, `NextBackend` rebuilds the algorithm with only the enabled
`IsBackup` backends, retries exactly once, and returns that retry's
candidate (or nil); if the engine is already in backup mode it returns nil
with the engine state unchanged (no rebuild, no retry). The embedding is a
total function with no error channel, so no call can raise an error. -/
theorem c2_backup_failover (this : ServerConfig) (recognized : String → Bool)
    (nextFn : SchedObj → GoMap → Option ServerBackendConfig) (options : GoMap)
    (obj : SchedObj)
    (hobj : this.schedulingObject = some obj)
    (hnone : nextFn obj (mergedOptions this options) = none) :
    (this.schedulingIsBackup = false →
      ∃ obj2, (this.SetupScheduling recognized true).schedulingObject = some obj2 ∧
        obj2.pool = this.Backends.filter
          (fun b => b.On && !b.IsDown && b.IsBackup == true) ∧
        (this.NextBackend recognized nextFn options).result =
          nextFn obj2 (mergedOptions this options) ∧
        (this.NextBackend recognized nextFn options).state =
          this.SetupScheduling recognized true) ∧
    (this.schedulingIsBackup = true →
      (this.NextBackend recognized nextFn options).result = none ∧
      (this.NextBackend recognized nextFn options).state = this) := by
  constructor
  · intro hb
    refine ⟨(addBackends true (selectSchedObj recognized this.Scheduling).2 this.Backends).Start,
      setupScheduling_schedulingObject this recognized true, ?_, ?_, ?_⟩
    · rw [SchedObj.Start_pool, addBackends_pool, selectSchedObj_pool, List.nil_append]
    · unfold ServerConfig.NextBackend
      rw [hobj]
      simp only [hnone, hb, Bool.not_false, if_true]
      cases hnf2 : nextFn ((addBackends true (selectSchedObj recognized this.Scheduling).2
          this.Backends).Start) (mergedOptions this options) <;>
        simp [setupScheduling_schedulingObject, hnf2]
    · unfold ServerConfig.NextBackend
      rw [hobj]
      simp only [hnone, hb, Bool.not_false, if_true]
      cases hnf2 : nextFn ((addBackends true (selectSchedObj recognized this.Scheduling).2
          this.Backends).Start) (mergedOptions this options) <;>
        simp [setupScheduling_schedulingObject, hnf2]
  · intro hb
    unfold ServerConfig.NextBackend
    rw [hobj]
    simp [hnone, hb]

/-- Witness for C2 at a concrete engine: primary mode, a primary and a
backup backend, an algorithm that never yields a candidate. -/
theorem c2_backup_failover_witness :
    srvC2.schedulingObject = some RandomScheduling ∧
    alwaysNone RandomScheduling (mergedOptions srvC2 emptyGoMap) = none ∧
    ((srvC2.schedulingIsBackup = false →
      ∃ obj2, (srvC2.SetupScheduling noneRecognized true).schedulingObject = some obj2 ∧
        obj2.pool = srvC2.Backends.filter
          (fun b => b.On && !b.IsDown && b.IsBackup == true) ∧
        (srvC2.NextBackend noneRecognized alwaysNone emptyGoMap).result =
          alwaysNone obj2 (mergedOptions srvC2 emptyGoMap) ∧
        (srvC2.NextBackend noneRecognized alwaysNone emptyGoMap).state =
          srvC2.SetupScheduling noneRecognized true) ∧
    (srvC2.schedulingIsBackup = true →
      (srvC2.NextBackend noneRecognized alwaysNone emptyGoMap).result = none ∧
      (srvC2.NextBackend noneRecognized alwaysNone emptyGoMap).state = srvC2)) :=
  ⟨rfl, rfl, c2_backup_failover srvC2 noneRecognized alwaysNone emptyGoMap
    RandomScheduling rfl rfl⟩

/-- C1 counterexample: with static options `"k" ↦ "static"` and a caller
map `"k" ↦ "caller"`, the algorithm's `Next` observes the STATIC value (it
returns `backend0` exactly when it sees `"static"`), and the caller's map
afterwards holds `"static"` at `"k"` — the static entry overrode the
caller-supplied one, so the caller does not win. -/
theorem c1_static_overrides_caller_counterexample :
    optsCaller "k" = some "caller" ∧
    schedCfg1.Options "k" = some "static" ∧
    (srvC1.NextBackend noneRecognized observeNext optsCaller).result = some backend0 ∧
    (srvC1.NextBackend noneRecognized observeNext optsCaller).options "k" = some "static" := by
  refine ⟨rfl, ?_, ?_, ?_⟩ <;> rfl

/-- C1 amended: `NextBackend` merges the server's static scheduling
options OVER the caller-supplied options: for any key the static `Options`
map defines, the static value is the one in the map passed to the
algorithm's `Next` (and left in the caller's map); caller-supplied values
survive only at keys the static map does not define. -/
theorem c1_options_merge_static_wins (this : ServerConfig) (recognized : String → Bool)
    (nextFn : SchedObj → GoMap → Option ServerBackendConfig) (options : GoMap)
    (cfg : SchedulingConfig) (obj : SchedObj)
    (hs : this.Scheduling = some cfg)
    (hobj : this.schedulingObject = some obj) :
    (∀ k v, cfg.Options k = some v →
      (this.NextBackend recognized nextFn options).options k = some v) ∧
    (∀ k, cfg.Options k = none →
      (this.NextBackend recognized nextFn options).options k = options k) := by
  have ho := nextBackend_options this recognized nextFn options obj hobj
  constructor
  · intro k v h
    rw [ho]
    simp [mergedOptions, hs, h]
  · intro k h
    rw [ho]
    simp [mergedOptions, hs, h]

/-- Witness for the amended C1 at the concrete fixture. -/
theorem c1_options_merge_static_wins_witness :
    srvC1.Scheduling = some schedCfg1 ∧
    srvC1.schedulingObject = some RandomScheduling ∧
    ((∀ k v, schedCfg1.Options k = some v →
      (srvC1.NextBackend noneRecognized observeNext optsCaller).options k = some v) ∧
    (∀ k, schedCfg1.Options k = none →
      (srvC1.NextBackend noneRecognized observeNext optsCaller).options k = optsCaller k)) :=
  ⟨rfl, rfl, c1_options_merge_static_wins srvC1 noneRecognized observeNext optsCaller
    schedCfg1 RandomScheduling rfl rfl⟩

/-- C10: when `Scheduling` is non-nil (and an algorithm is installed, so
the merge loop is reached), `NextBackend` writes every static option entry
into the map object the caller passed in: the caller's map after the call
is the pointwise override of the original by the static entries. -/
theorem c10_options_map_mutation (this : ServerConfig) (recognized : String → Bool)
    (nextFn : SchedObj → GoMap → Option ServerBackendConfig) (options : GoMap)
    (cfg : SchedulingConfig) (obj : SchedObj)
    (hs : this.Scheduling = some cfg)
    (hobj : this.schedulingObject = some obj) :
    (this.NextBackend recognized nextFn options).options =
      (fun k => match cfg.Options k with | some v => some v | none => options k) := by
  rw [nextBackend_options this recognized nextFn options obj hobj]
  simp [mergedOptions, hs]

/-- Witness for C10 at the concrete fixture, including the visible change
at key `"k"`. -/
theorem c10_options_map_mutation_witness :
    srvC1.Scheduling = some schedCfg1 ∧
    srvC1.schedulingObject = some RandomScheduling ∧
    (srvC1.NextBackend noneRecognized alwaysNone optsCaller).options =
      (fun k => match schedCfg1.Options k with | some v => some v | none => optsCaller k) ∧
    (srvC1.NextBackend noneRecognized alwaysNone optsCaller).options "k" = some "static" ∧
    optsCaller "k" = some "caller" :=
  ⟨rfl, rfl, c10_options_map_mutation srvC1 noneRecognized alwaysNone optsCaller
    schedCfg1 RandomScheduling rfl rfl, rfl, rfl⟩

theorem apiStepRun_Scheduling (s2 : ServerConfig) :
    ((apiStepRun s2).2).Scheduling = s2.Scheduling := by
  unfold apiStepRun
  cases h : s2.API with
  | none => simp [h, apiValidateErr, NewAPIConfig]
  | some a =>
    simp only [h]
    cases ha : a.validateErr <;> simp [apiValidateErr, ha]

theorem apiStepRun_cachePolicy (s2 : ServerConfig) :
    ((apiStepRun s2).2).cachePolicy = s2.cachePolicy := by
  unfold apiStepRun
  cases h : s2.API with
  | none => simp [h, apiValidateErr, NewAPIConfig]
  | some a =>
    simp only [h]
    cases ha : a.validateErr <;> simp [apiValidateErr, ha]

theorem apiStepRun_fst (s2 : ServerConfig) (hapi : apiValidateErr s2.API = none) :
    (apiStepRun s2).1 = none := by
  unfold apiStepRun
  cases h : s2.API with
  | none => simp [h, apiValidateErr, NewAPIConfig]
  | some a =>
    rw [h] at hapi
    simp only [apiValidateErr] at hapi
    simp [h, apiValidateErr, hapi]

theorem cacheStepRun_ok_Scheduling (rp : String → Option shared.CachePolicy)
    (s1 s2 : ServerConfig) (h : cacheStepRun rp s1 = Except.ok s2) :
    s2.Scheduling = s1.Scheduling := by
  unfold cacheStepRun at h
  split at h
  · split at h
    · split at h
      · simp at h
      · simp only [Except.ok.injEq] at h
        subst h
        rfl
    · simp only [Except.ok.injEq] at h
      subst h
      rfl
  · simp only [Except.ok.injEq] at h
    subst h
    rfl

theorem cacheStepRun_unresolved (rp : String → Option shared.CachePolicy)
    (s1 : ServerConfig) (hcp : s1.CachePolicy.length > 0)
    (h : rp s1.CachePolicy = none) : cacheStepRun rp s1 = Except.ok s1 := by
  unfold cacheStepRun
  simp [hcp, h]

theorem cacheStepRun_invalid (rp : String → Option shared.CachePolicy)
    (s1 : ServerConfig) (policy : shared.CachePolicy) (e : String)
    (hcp : s1.CachePolicy.length > 0)
    (h : rp s1.CachePolicy = some policy) (hv : policy.validateErr = some e) :
    cacheStepRun rp s1 = Except.error e := by
  unfold cacheStepRun
  simp [hcp, h, hv]

theorem cacheStepRun_resolved (rp : String → Option shared.CachePolicy)
    (s1 : ServerConfig) (policy : shared.CachePolicy)
    (hcp : s1.CachePolicy.length > 0)
    (h : rp s1.CachePolicy = some policy) (hv : policy.validateErr = none) :
    cacheStepRun rp s1 = Except.ok { s1 with cachePolicy := some policy } := by
  unfold cacheStepRun
  simp [hcp, h, hv]

/-- C6: an unrecognized scheduling code is not an error: `SetupScheduling`
(a total function — there is no error channel) clears the stored
`Scheduling` config to nil and installs the default random-pick algorithm
(`algCode = none`), and consequently the state left by `Validate` also has
`Scheduling = nil` (given that the earlier SSL/backend checks pass so the
scheduling step is reached). -/
theorem c6_unrecognized_code_downgrade (this : ServerConfig) (recognized : String → Bool)
    (resolvePolicy : String → Option shared.CachePolicy) (cfg : SchedulingConfig)
    (hs : this.Scheduling = some cfg)
    (hcode : recognized cfg.Code = false)
    (hssl : sslCheck this = none)
    (hback : this.Backends.findSome? ServerBackendConfig.validateErr = none) :
    (this.SetupScheduling recognized false).Scheduling = none ∧
    (∃ obj, (this.SetupScheduling recognized false).schedulingObject = some obj ∧
      obj.algCode = none) ∧
    ((this.Validate recognized resolvePolicy).2).Scheduling = none := by
  have hsel : selectSchedObj recognized this.Scheduling = (none, RandomScheduling) := by
    rw [hs]
    simp [selectSchedObj, FindSchedulingType, hcode]
  have h1 : (this.SetupScheduling recognized false).Scheduling = none := by
    rw [setupScheduling_Scheduling, hsel]
  refine ⟨h1, ⟨_, setupScheduling_schedulingObject this recognized false, ?_⟩, ?_⟩
  · rw [SchedObj.Start_algCode, addBackends_algCode, hsel]
    rfl
  · unfold ServerConfig.Validate
    simp only [hssl, hback]
    cases hLoc : List.findSome? LocationConfig.validateErr
        (this.SetupScheduling recognized false).Locations with
    | some e => simp [hLoc, h1]
    | none =>
      simp only [hLoc]
      cases hf : (this.SetupScheduling recognized false).fastcgiErr with
      | some e => simp [hf, h1]
      | none =>
        simp only [hf]
        cases hr : (this.SetupScheduling recognized false).rewriteErr with
        | some e => simp [hr, h1]
        | none =>
          simp only [hr]
          cases hh : (this.SetupScheduling recognized false).headersErr with
          | some e => simp [hh, h1]
          | none =>
            simp only [hh]
            cases hcs : cacheStepRun resolvePolicy (this.SetupScheduling recognized false) with
            | error e => simp [hcs, h1]
            | ok s2 =>
              simp only [hcs]
              rw [apiStepRun_Scheduling,
                cacheStepRun_ok_Scheduling resolvePolicy _ s2 hcs, h1]

/-- Witness for C6 at the concrete fixture with code `"does-not-exist"`. -/
theorem c6_unrecognized_code_downgrade_witness :
    srvC6.Scheduling = some { Code := "does-not-exist", Options := emptyGoMap } ∧
    noneRecognized "does-not-exist" = false ∧
    sslCheck srvC6 = none ∧
    srvC6.Backends.findSome? ServerBackendConfig.validateErr = none ∧
    ((srvC6.SetupScheduling noneRecognized false).Scheduling = none ∧
      (∃ obj, (srvC6.SetupScheduling noneRecognized false).schedulingObject = some obj ∧
        obj.algCode = none) ∧
      ((srvC6.Validate noneRecognized resolveOk).2).Scheduling = none) :=
  ⟨rfl, rfl, rfl, rfl,
    c6_unrecognized_code_downgrade srvC6 noneRecognized resolveOk
      { Code := "does-not-exist", Options := emptyGoMap } rfl rfl rfl rfl⟩

/-- C5 counterexample: with a non-empty `CachePolicy` name whose
resolution fails (the external resolver returns nil), `Validate` does NOT
abort with an error — it returns no error and leaves `cachePolicy`
unassigned, contradicting the claim that resolution failure aborts. -/
theorem c5_resolution_failure_silent_counterexample :
    srvC5.CachePolicy.length > 0 ∧
    resolveNone srvC5.CachePolicy = none ∧
    (srvC5.Validate noneRecognized resolveNone).1 = none ∧
    ((srvC5.Validate noneRecognized resolveNone).2).cachePolicy = none := by
  refine ⟨by decide, rfl, rfl, rfl⟩

/-- C5 amended: with a non-empty `CachePolicy` name (and the earlier
validation steps passing so the cache section is reached), a FAILED
resolution is silently skipped (no error, `cachePolicy` unchanged); a
resolved policy whose own validation fails aborts with that error (and
`cachePolicy` stays unchanged); only on successful resolution and
validation is the derived `cachePolicy` object assigned. -/
theorem c5_cache_policy_validation_amended (this : ServerConfig)
    (recognized : String → Bool)
    (resolvePolicy : String → Option shared.CachePolicy)
    (hssl : sslCheck this = none)
    (hback : this.Backends.findSome? ServerBackendConfig.validateErr = none)
    (hloc : this.Locations.findSome? LocationConfig.validateErr = none)
    (hf : this.fastcgiErr = none)
    (hr : this.rewriteErr = none)
    (hh : this.headersErr = none)
    (hapi : apiValidateErr this.API = none)
    (hcp : this.CachePolicy.length > 0) :
    (resolvePolicy this.CachePolicy = none →
      (this.Validate recognized resolvePolicy).1 = none ∧
      ((this.Validate recognized resolvePolicy).2).cachePolicy = this.cachePolicy) ∧
    (∀ policy e, resolvePolicy this.CachePolicy = some policy →
      policy.validateErr = some e →
      (this.Validate recognized resolvePolicy).1 = some e ∧
      ((this.Validate recognized resolvePolicy).2).cachePolicy = this.cachePolicy) ∧
    (∀ policy, resolvePolicy this.CachePolicy = some policy →
      policy.validateErr = none →
      (this.Validate recognized resolvePolicy).1 = none ∧
      ((this.Validate recognized resolvePolicy).2).cachePolicy = some policy) := by
  have hV : this.Validate recognized resolvePolicy =
      (match cacheStepRun resolvePolicy (this.SetupScheduling recognized false) with
       | Except.error e => (some e, this.SetupScheduling recognized false)
       | Except.ok s2 => apiStepRun s2) := by
    unfold ServerConfig.Validate
    simp only [hssl, hback, setupScheduling_Locations, hloc, setupScheduling_fastcgiErr, hf,
      setupScheduling_rewriteErr, hr, setupScheduling_headersErr, hh]
  refine ⟨?_, ?_, ?_⟩
  · intro hres
    rw [hV, cacheStepRun_unresolved resolvePolicy (this.SetupScheduling recognized false)
      hcp hres]
    exact ⟨apiStepRun_fst _ hapi, (apiStepRun_cachePolicy _).trans rfl⟩
  · intro policy e hres hv
    rw [hV, cacheStepRun_invalid resolvePolicy (this.SetupScheduling recognized false)
      policy e hcp hres hv]
    exact ⟨rfl, rfl⟩
  · intro policy hres hv
    rw [hV, cacheStepRun_resolved resolvePolicy (this.SetupScheduling recognized false)
      policy hcp hres hv]
    exact ⟨apiStepRun_fst _ hapi, (apiStepRun_cachePolicy _).trans rfl⟩

/-- Witness for the amended C5 at the concrete fixture, exercising the
successful-resolution branch. -/
theorem c5_cache_policy_validation_amended_witness :
    sslCheck srvC5 = none ∧
    srvC5.CachePolicy.length > 0 ∧
    ((resolveOk srvC5.CachePolicy = none →
      (srvC5.Validate noneRecognized resolveOk).1 = none ∧
      ((srvC5.Validate noneRecognized resolveOk).2).cachePolicy = srvC5.cachePolicy) ∧
    (∀ policy e, resolveOk srvC5.CachePolicy = some policy →
      policy.validateErr = some e →
      (srvC5.Validate noneRecognized resolveOk).1 = some e ∧
      ((srvC5.Validate noneRecognized resolveOk).2).cachePolicy = srvC5.cachePolicy) ∧
    (∀ policy, resolveOk srvC5.CachePolicy = some policy →
      policy.validateErr = none →
      (srvC5.Validate noneRecognized resolveOk).1 = none ∧
      ((srvC5.Validate noneRecognized resolveOk).2).cachePolicy = some policy)) :=
  ⟨rfl, by decide,
    c5_cache_policy_validation_amended srvC5 noneRecognized resolveOk
      rfl rfl rfl rfl rfl rfl rfl (by decide)⟩

/-- C3: the lock discipline of the scheduling engine, over the mutex/state
event traces of the two operations. `NextBackend`'s trace acquires the
mutex first, releases it last, and performs no other lock operation in
between (every inner event, including the whole promotion rebuild-and-retry,
is a state access inside the critical section); `SetupScheduling(true)`
performs no lock operation at all (the caller already holds the mutex);
`SetupScheduling(false)` brackets its accesses in a lock/unlock pair. Thus
every access to the active-algorithm pointer and backup flag happens while
the single mutex is held, which is why concurrent `NextBackend` calls
cannot observe a partially rebuilt algorithm instance. -/
theorem c3_lock_discipline :
    (∀ (this : ServerConfig)
       (nextFn : SchedObj → GoMap → Option ServerBackendConfig) (options : GoMap),
      ∃ mid, NextBackendTrace this nextFn options =
          MutexEvt.lock :: mid ++ [MutexEvt.unlock] ∧
        ∀ e ∈ mid, e = MutexEvt.access) ∧
    (∀ e ∈ SetupSchedulingTrace true, e = MutexEvt.access) ∧
    (∃ mid, SetupSchedulingTrace false =
        MutexEvt.lock :: mid ++ [MutexEvt.unlock] ∧
      ∀ e ∈ mid, e = MutexEvt.access) := by
  refine ⟨?_, by decide,
    ⟨[MutexEvt.access, MutexEvt.access, MutexEvt.access], by decide, by decide⟩⟩
  intro this nextFn options
  cases h : this.schedulingObject with
  | none => exact ⟨[MutexEvt.access], by simp [NextBackendTrace, h], by decide⟩
  | some obj =>
    cases h2 : nextFn obj (mergedOptions this options) with
    | some c =>
      exact ⟨[MutexEvt.access, MutexEvt.access], by simp [NextBackendTrace, h, h2], by decide⟩
    | none =>
      cases h3 : this.schedulingIsBackup with
      | true =>
        exact ⟨[MutexEvt.access, MutexEvt.access, MutexEvt.access],
          by simp [NextBackendTrace, h, h2, h3], by decide⟩
      | false =>
        exact ⟨[MutexEvt.access, MutexEvt.access, MutexEvt.access, MutexEvt.access,
            MutexEvt.access, MutexEvt.access, MutexEvt.access],
          by simp [NextBackendTrace, h, h2, h3, SetupSchedulingTrace], by decide⟩

/-- C7: `SetupScheduling` installs a freshly started algorithm instance
whose pool is exactly the enabled (`On && !IsDown`) backends of the
requested tier, in order; the result is independent of whatever algorithm
instance and backup flag were previously stored (full discard), and calling
it again rebuilds the identical state (idempotence over an unchanged
backend list). -/
theorem c7_setup_scheduling_pool (this : ServerConfig) (recognized : String → Bool)
    (isBackup : Bool) :
    (∃ obj, (this.SetupScheduling recognized isBackup).schedulingObject = some obj ∧
      obj.pool = this.Backends.filter
        (fun b => b.On && !b.IsDown && b.IsBackup == isBackup) ∧
      obj.started = true) ∧
    (∀ o' b', (({ this with schedulingObject := o', schedulingIsBackup := b' }
        : ServerConfig).SetupScheduling recognized isBackup) =
      this.SetupScheduling recognized isBackup) ∧
    ((this.SetupScheduling recognized isBackup).SetupScheduling recognized isBackup =
      this.SetupScheduling recognized isBackup) := by
  refine ⟨setupScheduling_schedObj this recognized isBackup, fun o' b' => rfl, ?_⟩
  unfold ServerConfig.SetupScheduling
  cases h : this.Scheduling with
  | none => rfl
  | some cfg =>
    by_cases hc : recognized cfg.Code <;>
      simp [selectSchedObj, FindSchedulingType, hc]

theorem matchLoop_snd_true (name : String) (pieces1 : List String) (count : Nat)
    (l : List String) (hmem : name ∈ l) (hname : name.length ≠ 0) :
    (matchLoop name pieces1 count l).2 = true := by
  induction l with
  | nil => cases hmem
  | cons t rest ih =>
    by_cases h0 : t.length = 0
    · have hne : name ≠ t := fun h => hname (h ▸ h0)
      have hm : name ∈ rest := by
        rcases List.mem_cons.mp hmem with h | hm
        · exact absurd h hne
        · exact hm
      simpa [matchLoop, h0] using ih hm
    · by_cases he : name = t
      · simp [matchLoop, h0, he]
      · have hm : name ∈ rest := by
          rcases List.mem_cons.mp hmem with h | hm
          · exact absurd h he
          · exact hm
        by_cases hcnt : count ≠ (splitOnDot t).length
        · simpa [matchLoop, h0, he, hcnt] using ih hm
        · by_cases hp : piecesMatch pieces1 (splitOnDot t) = true
          · simp [matchLoop, h0, he, hcnt, hp]
          · simpa [matchLoop, h0, he, hcnt, hp] using ih hm

theorem matchLoop_first_exact (name : String) (pre post : List String)
    (hname : name.length ≠ 0)
    (hpre : ∀ p ∈ pre, wildcardFires name p = false) :
    matchLoop name (splitOnDot name) (splitOnDot name).length (pre ++ name :: post) =
      (name, true) := by
  induction pre with
  | nil =>
    simp [matchLoop, hname]
  | cons t rest ih =>
    have ht := hpre t (List.mem_cons_self t rest)
    have hrest : ∀ p ∈ rest, wildcardFires name p = false :=
      fun p hp => hpre p (List.mem_cons_of_mem t hp)
    by_cases h0 : t.length = 0
    · simpa [matchLoop, h0] using ih hrest
    · by_cases he : name = t
      · subst he
        simp [matchLoop, h0]
      · have hspec : specSegmentWiseMatch name t = false := by
          cases hq : specSegmentWiseMatch name t with
          | false => rfl
          | true =>
            unfold wildcardFires at ht
            simp [hq, h0, he] at ht
        by_cases hcnt : (splitOnDot name).length = (splitOnDot t).length
        · have hpm : piecesMatch (splitOnDot name) (splitOnDot t) = false := by
            cases hq : piecesMatch (splitOnDot name) (splitOnDot t) with
            | false => rfl
            | true =>
              unfold specSegmentWiseMatch at hspec
              simp [hcnt, hq] at hspec
          have hcond : ¬((splitOnDot name).length ≠ (splitOnDot t).length) := by
            simp [hcnt]
          simpa [matchLoop, h0, he, hcond, hpm] using ih hrest
        · simpa [matchLoop, h0, he, hcnt] using ih hrest

theorem matchLoop_wildcard (name : String) (l : List String)
    (hne : ∀ p ∈ l, name ≠ p)
    (hex : ∃ p ∈ l, p.length ≠ 0 ∧ specSegmentWiseMatch name p = true) :
    matchLoop name (splitOnDot name) (splitOnDot name).length l = ("", true) := by
  induction l with
  | nil =>
    rcases hex with ⟨p, hp, _⟩
    cases hp
  | cons t rest ih =>
    have hnet : name ≠ t := hne t (List.mem_cons_self t rest)
    have hner : ∀ p ∈ rest, name ≠ p := fun p hp => hne p (List.mem_cons_of_mem t hp)
    by_cases h0 : t.length = 0
    · have hexr : ∃ p ∈ rest, p.length ≠ 0 ∧ specSegmentWiseMatch name p = true := by
        rcases hex with ⟨p, hp, hplen, hpm⟩
        rcases List.mem_cons.mp hp with rfl | hpr
        · exact absurd h0 hplen
        · exact ⟨p, hpr, hplen, hpm⟩
      simpa [matchLoop, h0] using ih hner hexr
    · by_cases hsm : specSegmentWiseMatch name t = true
      · have hparts : ((splitOnDot name).length == (splitOnDot t).length) = true ∧
            piecesMatch (splitOnDot name) (splitOnDot t) = true := by
          unfold specSegmentWiseMatch at hsm
          exact Bool.and_eq_true_iff.mp hsm
        have hcnt : (splitOnDot name).length = (splitOnDot t).length := by
          simpa using hparts.1
        simp [matchLoop, h0, hnet, hcnt, hparts.2]
      · have hexr : ∃ p ∈ rest, p.length ≠ 0 ∧ specSegmentWiseMatch name p = true := by
          rcases hex with ⟨p, hp, hplen, hpm⟩
          rcases List.mem_cons.mp hp with rfl | hpr
          · exact absurd hpm hsm
          · exact ⟨p, hpr, hplen, hpm⟩
        by_cases hcnt : (splitOnDot name).length ≠ (splitOnDot t).length
        · simpa [matchLoop, h0, hnet, hcnt] using ih hner hexr
        · have hceq : (splitOnDot name).length = (splitOnDot t).length := not_not.mp hcnt
          have hpmf : piecesMatch (splitOnDot name) (splitOnDot t) = false := by
            cases hq : piecesMatch (splitOnDot name) (splitOnDot t) with
            | false => rfl
            | true =>
              refine absurd ?_ hsm
              unfold specSegmentWiseMatch
              simp [hceq, hq]
          simpa [matchLoop, h0, hnet, hcnt, hpmf] using ih hner hexr

/-- C4 counterexample: the name `"www.a.com"` is present verbatim in the
pattern list, but an earlier wildcard pattern (`"*.a.com"`) matches it
first, so `MatchName` returns `matchedPattern = ""` rather than the
verbatim name — the claim's "regardless of which other patterns are
configured and of their order" fails. -/
theorem c4_exact_match_shadowed_counterexample :
    "www.a.com" ∈ srvC4.Name ∧
    srvC4.MatchName "www.a.com" = ("", true) := by
  exact ⟨by decide, by decide⟩

/-- C4 amended: for every non-empty input name present verbatim among the
configured patterns, `MatchName` returns `matched = true`; and
`matchedPattern` equals that verbatim name provided no pattern listed
before the verbatim occurrence wildcard-matches the input (an earlier
wildcard match returns `matched = true` with an empty `matchedPattern`
instead). -/
theorem c4_exact_match_reflexive_amended (this : ServerConfig) (name : String)
    (pre post : List String)
    (hname : name.length ≠ 0)
    (hsplit : this.Name = pre ++ name :: post) :
    (this.MatchName name).2 = true ∧
    ((∀ p ∈ pre, wildcardFires name p = false) → this.MatchName name = (name, true)) := by
  unfold ServerConfig.MatchName
  rw [if_neg hname, hsplit]
  constructor
  · exact matchLoop_snd_true name _ _ _ (by simp) hname
  · intro hpre
    exact matchLoop_first_exact name pre post hname hpre

/-- Witness for the amended C4 at a concrete pattern list without
shadowing. -/
theorem c4_exact_match_reflexive_amended_witness :
    ("a.com" : String).length ≠ 0 ∧
    srvC4w.Name = ["b.com"] ++ "a.com" :: [] ∧
    ((srvC4w.MatchName "a.com").2 = true ∧
      ((∀ p ∈ ["b.com"], wildcardFires "a.com" p = false) →
        srvC4w.MatchName "a.com" = ("a.com", true))) :=
  ⟨by decide, rfl,
    c4_exact_match_reflexive_amended srvC4w "a.com" ["b.com"] [] (by decide) rfl⟩

/-- C9 counterexample: two inputs satisfying the claim's precondition (not
exactly equal to any configured pattern, segment-wise match against a
pattern) on which `MatchName` nevertheless returns `matched = false`: the
empty input name (rejected up front) against pattern `"*"`, and the input
`"x"` against the empty pattern (empty patterns are skipped by the loop). -/
theorem c9_wildcard_empty_counterexample :
    (("" : String) ≠ "*" ∧ specSegmentWiseMatch "" "*" = true ∧
      srvC9a.MatchName "" = ("", false)) ∧
    (("x" : String) ≠ "" ∧ specSegmentWiseMatch "x" "" = true ∧
      srvC9b.MatchName "x" = ("", false)) := by
  exact ⟨⟨by decide, by decide, by decide⟩, ⟨by decide, by decide, by decide⟩⟩

/-- C9 amended: for every NON-EMPTY input name that is not exactly equal
to any configured pattern but matches some NON-EMPTY configured pattern
segment-wise, `MatchName` returns `matched = true` and `matchedPattern`
equal to the empty string. -/
theorem c9_wildcard_match_amended (this : ServerConfig) (name : String)
    (hname : name.length ≠ 0)
    (hne : ∀ p ∈ this.Name, name ≠ p)
    (hex : ∃ p ∈ this.Name, p.length ≠ 0 ∧ specSegmentWiseMatch name p = true) :
    this.MatchName name = ("", true) := by
  unfold ServerConfig.MatchName
  rw [if_neg hname]
  exact matchLoop_wildcard name this.Name hne hex

/-- Witness for the amended C9: `"www.a.com"` against pattern `"*.a.com"`. -/
theorem c9_wildcard_match_amended_witness :
    ("www.a.com" : String).length ≠ 0 ∧
    (∀ p ∈ srvC9w.Name, "www.a.com" ≠ p) ∧
    (∃ p ∈ srvC9w.Name, p.length ≠ 0 ∧ specSegmentWiseMatch "www.a.com" p = true) ∧
    srvC9w.MatchName "www.a.com" = ("", true) :=
  ⟨by decide, by decide, by decide,
    c9_wildcard_match_amended srvC9w "www.a.com" (by decide) (by decide) (by decide)⟩

/-- C8: the first non-empty identifier in the order rewrite > fastcgi >
backend > location decides the branch of `FindHeaderList` (the result is
independent of the lower-priority identifiers), all identifiers empty
selects the server itself, a non-empty `locationId` naming no existing
location is an immediate "location not found" error in every branch, and
with both `locationId` and `backendId` non-empty (no rewrite/fastcgi id)
the backend-scoped list inside the location is returned, not the
location-scoped one. -/
theorem c8_find_header_list_priority (this : ServerConfig) :
    (∀ locationId rewriteId fastcgiId fastcgiId' backendId backendId',
      rewriteId.length > 0 →
        this.FindHeaderList locationId backendId rewriteId fastcgiId =
        this.FindHeaderList locationId backendId' rewriteId fastcgiId') ∧
    (∀ locationId fastcgiId backendId backendId',
      fastcgiId.length > 0 →
        this.FindHeaderList locationId backendId "" fastcgiId =
        this.FindHeaderList locationId backendId' "" fastcgiId) ∧
    (this.FindHeaderList "" "" "" "" = Except.ok HeaderListRef.server) ∧
    (∀ locationId backendId rewriteId fastcgiId,
      locationId.length > 0 → this.FindLocation locationId = none →
        this.FindHeaderList locationId backendId rewriteId fastcgiId =
          Except.error "找不到要修改的location") ∧
    (∀ locationId backendId location backend,
      locationId.length > 0 → backendId.length > 0 →
      this.FindLocation locationId = some location →
      location.FindBackend backendId = some backend →
        this.FindHeaderList locationId backendId "" "" =
          Except.ok (HeaderListRef.backend backend)) := by
  have h0 : ¬(("" : String).length > 0) := by decide
  refine ⟨?_, ?_, rfl, ?_, ?_⟩
  · intro l r f f' b b' hr
    simp only [ServerConfig.FindHeaderList, if_pos hr]
  · intro l f b b' hf
    simp only [ServerConfig.FindHeaderList, if_neg h0, if_pos hf]
  · intro l b r f hl hnone
    unfold ServerConfig.FindHeaderList
    by_cases hr : r.length > 0
    · rw [if_pos hr, if_pos hl, hnone]
    · rw [if_neg hr]
      by_cases hf : f.length > 0
      · rw [if_pos hf, if_pos hl, hnone]
      · rw [if_neg hf]
        by_cases hb : b.length > 0
        · rw [if_pos hb, if_pos hl, hnone]
        · rw [if_neg hb, if_pos hl, hnone]
  · intro l b location backend hl hb hloc hback
    unfold ServerConfig.FindHeaderList
    rw [if_neg h0, if_neg h0, if_pos hb, if_pos hl, hloc]
    simp only [hback]

/-- Witness for C8 at a concrete hierarchy: location `L1` owning backend
`B1`, plus a missing-location probe. -/
theorem c8_find_header_list_priority_witness :
    srvC8.FindLocation "L1" = some locL1 ∧
    locL1.FindBackend "B1" = some bL1 ∧
    srvC8.FindHeaderList "L1" "B1" "" "" = Except.ok (HeaderListRef.backend bL1) ∧
    srvC8.FindHeaderList "missing" "B1" "r1" "f1" =
      Except.error "找不到要修改的location" :=
  ⟨rfl, rfl,
    (c8_find_header_list_priority srvC8).2.2.2.2 "L1" "B1" locL1 bL1
      (by decide) (by decide) rfl rfl,
    (c8_find_header_list_priority srvC8).2.2.2.1 "missing" "B1" "r1" "f1"
      (by decide) rfl⟩
